import Mathlib

/-
Verification of the market-data order-book engine (fkonrad97/pop).

Shallow embedding of:
  * NOrderBook (include/orderbook/NOrderBook.hpp),
  * OrderBookController (include/orderbook/OrderBookController.hpp,
    src/orderbook/OrderBookController.cpp),
  * GenericFeedHandler message/snapshot handling
    (src/md/GenericFeedHandler.cpp),
  * CRC32 checksum utilities (include/utils/CheckSumUtils.hpp).

Machine integers: the C++ uses std::int64_t for price ticks / lot
quantities / checksums (modelled as Int) and std::uint64_t for sequence
numbers (modelled as Nat; the only arithmetic performed on them is +1 and
comparisons, far below the 2^64 wrap).
-/

/-- A price level: `struct Level` of NOrderBook.hpp
(`priceTick : int64_t`, `quantityLot : int64_t`). -/
structure Level where
  priceTick : Int
  quantityLot : Int
deriving DecidableEq, Repr

/-- `Level::isEmpty` : quantityLot == 0. -/
def Level.isEmpty (l : Level) : Bool := l.quantityLot = 0

/-- `enum class Side`. -/
inductive Side where
  | BID
  | ASK
deriving DecidableEq, Repr

/-- One side of the book under `std::lower_bound`: on a sorted vector the
iterator returned by `lower_bound(begin, end, t, cmp)` is the first position
whose element fails `cmp(elem, t)`; on a list this is the
`takeWhile`/`dropWhile` split.  `updateSide` is the body of
`NOrderBook::update` after the `isEmpty` dispatch (options A/B/C of the
source). -/
def updateSide (depth : Nat) (p : Level → Bool) (level : Level)
    (vec : List Level) : List Level :=
  let pre := vec.takeWhile p
  match vec.dropWhile p with
  | [] =>
    -- iterator at end: option B if there is room, otherwise option C is
    -- skipped (`it == vec.end()`), the update is ignored
    if vec.length < depth then pre ++ [level] else vec
  | x :: rest =>
    if x.priceTick = level.priceTick then
      -- option A: overwrite the quantity in place
      pre ++ ⟨x.priceTick, level.quantityLot⟩ :: rest
    else if vec.length < depth then
      -- option B: room available, insert at the sorted position
      pre ++ level :: x :: rest
    else
      -- option C: insert then pop_back (drop the worst level)
      (pre ++ level :: x :: rest).dropLast

/-- `NOrderBook::remove` on one side: locate by the same comparator split,
erase when the price matches, otherwise no-op. -/
def removeSide (p : Level → Bool) (tick : Int) (vec : List Level) :
    List Level :=
  let pre := vec.takeWhile p
  match vec.dropWhile p with
  | [] => vec
  | x :: rest => if x.priceTick = tick then pre ++ rest else vec

/-- Comparator of the bid side (`obLevel.priceTick > _updateTick`):
elements strictly better than the incoming tick come first. -/
def bidPred (tick : Int) (l : Level) : Bool := decide (tick < l.priceTick)

/-- Comparator of the ask side (`obLevel.priceTick < _updateTick`). -/
def askPred (tick : Int) (l : Level) : Bool := decide (l.priceTick < tick)

/-- `class NOrderBook`: fixed-depth book, bids sorted descending and asks
ascending by priceTick. -/
structure NOrderBook where
  depth : Nat
  bids : List Level
  asks : List Level
deriving DecidableEq, Repr

/-- `NOrderBook::remove<S>`. -/
def NOrderBook.remove (b : NOrderBook) (s : Side) (tick : Int) :
    NOrderBook :=
  match s with
  | Side.BID => { b with bids := removeSide (bidPred tick) tick b.bids }
  | Side.ASK => { b with asks := removeSide (askPred tick) tick b.asks }

/-- `NOrderBook::update<S>` : a quantity-0 update is a deletion, otherwise
the sorted upsert of `updateSide`. -/
def NOrderBook.update (b : NOrderBook) (s : Side) (level : Level) :
    NOrderBook :=
  if level.isEmpty then b.remove s level.priceTick
  else
    match s with
    | Side.BID =>
      { b with
        bids := updateSide b.depth (bidPred level.priceTick) level b.bids }
    | Side.ASK =>
      { b with
        asks := updateSide b.depth (askPred level.priceTick) level b.asks }

/-- Adjacent strict-descending check of `NOrderBook::validate` on bids. -/
def sortedDescB : List Level → Bool
  | [] => true
  | [_] => true
  | a :: b :: t => decide (b.priceTick < a.priceTick) && sortedDescB (b :: t)

/-- Adjacent strict-ascending check of `NOrderBook::validate` on asks. -/
def sortedAscB : List Level → Bool
  | [] => true
  | [_] => true
  | a :: b :: t => decide (a.priceTick < b.priceTick) && sortedAscB (b :: t)

/-- `NOrderBook::validate`: depth sanity, strict sortedness/uniqueness per
side, no lingering empty level. -/
def NOrderBook.validate (b : NOrderBook) : Bool :=
  decide (b.bids.length ≤ b.depth) &&
  decide (b.asks.length ≤ b.depth) &&
  sortedDescB b.bids &&
  sortedAscB b.asks &&
  b.bids.all (fun l => !l.isEmpty) &&
  b.asks.all (fun l => !l.isEmpty)

/-- `OrderBook::clear` (the controller resets through it). -/
def NOrderBook.clear (b : NOrderBook) : NOrderBook :=
  { b with bids := [], asks := [] }

/-- An empty book of a given depth (state right after construction). -/
def emptyBook (depth : Nat) : NOrderBook := ⟨depth, [], []⟩

/-- `GenericIncrementalFormat` (OrderBookController.hpp). -/
structure GenericIncrementalFormat where
  first_seq : Nat := 0
  last_seq : Nat := 0
  prev_last : Nat := 0
  ts_recv_ns : Int := 0
  checksum : Int := 0
  bids : List Level := []
  asks : List Level := []

/-- `GenericSnapshotFormat` (OrderBookController.hpp). -/
structure GenericSnapshotFormat where
  lastUpdateId : Nat := 0
  ts_recv_ns : Int := 0
  checksum : Int := 0
  bids : List Level := []
  asks : List Level := []

/-- `ChecksumFn` (CheckSumUtils.hpp): `(book, expected, topN) → bool`.
The C++ function pointer may be null; the model uses `Option`. -/
def ChecksumFn := NOrderBook → Int → Nat → Bool

/-- `OrderBookController::BaselineKind`. -/
inductive BaselineKind where
  | RestAnchored
  | WsAuthoritative
deriving DecidableEq, Repr

/-- `OrderBookController::Action` (named with its C++ qualifier; a bare
`Action` collides with Mathlib). -/
inductive OrderBookController.Action where
  | None
  | NeedResync
deriving DecidableEq, Repr

/-- `OrderBookController::SyncState`. -/
inductive CtrlSyncState where
  | WaitingSnapshot
  | WaitingBridge
  | Synced
deriving DecidableEq, Repr

/-- `class OrderBookController` data members. -/
structure OrderBookController where
  book : NOrderBook
  state : CtrlSyncState := CtrlSyncState.WaitingSnapshot
  last_seq : Nat := 0
  expected_seq : Nat := 0
  checksum_fn : Option ChecksumFn := none
  checksum_topN : Nat := 25
  allow_seq_gap : Bool := false

/-- `OrderBookController` constructor: fresh book at the configured depth,
all other members at their defaults. -/
def OrderBookController.mkCtrl (depth : Nat) : OrderBookController :=
  { book := emptyBook depth }

/-- `OrderBookController::configureChecksum`. -/
def OrderBookController.configureChecksum (c : OrderBookController)
    (fn : Option ChecksumFn) (topN : Nat) : OrderBookController :=
  { c with checksum_fn := fn, checksum_topN := topN }

/-- `OrderBookController::setAllowSequenceGap`. -/
def OrderBookController.setAllowSequenceGap (c : OrderBookController)
    (allow : Bool) : OrderBookController :=
  { c with allow_seq_gap := allow }

/-- `OrderBookController::resetBook`: clear the book, return to
`WaitingSnapshot`, zero both sequence counters. -/
def OrderBookController.resetBook (c : OrderBookController) :
    OrderBookController :=
  { c with
    book := c.book.clear
    state := CtrlSyncState.WaitingSnapshot
    last_seq := 0
    expected_seq := 0 }

/-- `OrderBookController::isSynced`. -/
def OrderBookController.isSynced (c : OrderBookController) : Bool :=
  c.state = CtrlSyncState.Synced

/-- `OrderBookController::applyIncrementUpdate`: every bid level then every
ask level through `update`. -/
def applyIncrementUpdate (b : NOrderBook) (upd : GenericIncrementalFormat) :
    NOrderBook :=
  (upd.bids.foldl (fun bk l => bk.update Side.BID l) b
    |> fun b1 => upd.asks.foldl (fun bk l => bk.update Side.ASK l) b1)

/-- Checksum gate shared by the tail of `onSnapshot` / `onIncrement`: when a
checksum function is configured, require a nonzero venue checksum and a
successful `validateChecksum` over the current book, otherwise
`resetBook` and report `NeedResync`. -/
def checksumGate (c : OrderBookController) (chk : Int) :
    OrderBookController.Action × OrderBookController :=
  match c.checksum_fn with
  | none => (OrderBookController.Action.None, c)
  | some f =>
    if chk = 0 then (OrderBookController.Action.NeedResync, c.resetBook)
    else if f c.book chk c.checksum_topN then (OrderBookController.Action.None, c)
    else (OrderBookController.Action.NeedResync, c.resetBook)

/-- `std::sort` comparator `x.priceTick > y.priceTick` yields a
descending-by-tick permutation; the model sorts with the reflexive closure
of that comparator so the order is total. -/
def bidGE (x y : Level) : Prop := y.priceTick ≤ x.priceTick

/-- `std::sort` comparator `x.priceTick < y.priceTick` (ascending). -/
def askLE (x y : Level) : Prop := x.priceTick ≤ y.priceTick

instance : DecidableRel bidGE := fun x y =>
  inferInstanceAs (Decidable (y.priceTick ≤ x.priceTick))

instance : DecidableRel askLE := fun x y =>
  inferInstanceAs (Decidable (x.priceTick ≤ y.priceTick))

instance : IsTotal Level bidGE := ⟨fun x y => le_total y.priceTick x.priceTick⟩

instance : IsTotal Level askLE := ⟨fun x y => le_total x.priceTick y.priceTick⟩

instance : IsTrans Level bidGE := ⟨fun _ _ _ h1 h2 => le_trans h2 h1⟩

instance : IsTrans Level askLE := ⟨fun _ _ _ h1 h2 => le_trans h1 h2⟩

/-- Apply a list of levels to one side of the book through `update`. -/
def applyLevels (b : NOrderBook) (s : Side) (ls : List Level) : NOrderBook :=
  ls.foldl (fun bk l => bk.update s l) b

/-- Book produced by the application phase of `onSnapshot`: cleared book,
bids sorted descending and applied, then asks sorted ascending and
applied. -/
def snapAppliedBook (depth : Nat) (msg : GenericSnapshotFormat) :
    NOrderBook :=
  applyLevels
    (applyLevels (emptyBook depth) Side.BID (List.insertionSort bidGE msg.bids))
    Side.ASK (List.insertionSort askLE msg.asks)

/-- State set by a successful `onSnapshot` for the given baseline kind. -/
def baselineState (kind : BaselineKind) : CtrlSyncState :=
  match kind with
  | BaselineKind.WsAuthoritative => CtrlSyncState.Synced
  | BaselineKind.RestAnchored => CtrlSyncState.WaitingBridge

/-- `OrderBookController::onSnapshot` (OrderBookController.cpp lines
7-45). -/
def OrderBookController.onSnapshot (c : OrderBookController)
    (msg : GenericSnapshotFormat) (kind : BaselineKind) :
    OrderBookController.Action × OrderBookController :=
  let book1 := snapAppliedBook c.book.depth msg
  let c1 := { c.resetBook with
              book := book1
              last_seq := msg.lastUpdateId
              expected_seq := msg.lastUpdateId + 1 }
  match c.checksum_fn with
  | none => (OrderBookController.Action.None, { c1 with state := baselineState kind })
  | some f =>
    if msg.checksum = 0 then (OrderBookController.Action.NeedResync, c1.resetBook)
    else if f book1 msg.checksum c.checksum_topN then
      (OrderBookController.Action.None, { c1 with state := baselineState kind })
    else (OrderBookController.Action.NeedResync, c1.resetBook)

/-- `OrderBookController::onIncrement` (OrderBookController.cpp lines
47-144).  Note that the code never consults `allow_seq_gap` here. -/
def OrderBookController.onIncrement (c : OrderBookController)
    (msg : GenericIncrementalFormat) : OrderBookController.Action × OrderBookController :=
  if c.state = CtrlSyncState.WaitingSnapshot then (OrderBookController.Action.None, c)
  else if msg.last_seq = 0 ∧ c.checksum_fn.isNone = true then
    (OrderBookController.Action.NeedResync, c)
  else if c.state = CtrlSyncState.WaitingBridge then
    -- bridging phase (RestAnchored)
    if msg.last_seq ≠ 0 then
      if msg.last_seq < c.expected_seq then (OrderBookController.Action.None, c)
      else if c.expected_seq < msg.first_seq then (OrderBookController.Action.NeedResync, c)
      else
        checksumGate
          { c with
            book := applyIncrementUpdate c.book msg
            last_seq := msg.last_seq
            expected_seq := msg.last_seq + 1
            state := CtrlSyncState.Synced } msg.checksum
    else
      checksumGate
        { c with
          book := applyIncrementUpdate c.book msg
          state := CtrlSyncState.Synced } msg.checksum
  else
    -- steady state (Synced)
    if msg.last_seq ≠ 0 then
      if msg.last_seq < c.expected_seq then (OrderBookController.Action.None, c)
      else if c.expected_seq < msg.first_seq then (OrderBookController.Action.NeedResync, c)
      else
        checksumGate
          { c with
            book := applyIncrementUpdate c.book msg
            last_seq := msg.last_seq
            expected_seq := msg.last_seq + 1 } msg.checksum
    else
      checksumGate { c with book := applyIncrementUpdate c.book msg }
        msg.checksum

/-- `md::SyncMode` (VenueAdapter.hpp). -/
inductive SyncMode where
  | RestAnchored
  | WsAuthoritative
deriving DecidableEq, Repr

/-- `md::VenueCaps` (VenueAdapter.hpp). -/
structure VenueCaps where
  sync_mode : SyncMode := SyncMode.RestAnchored
  ws_sends_snapshot : Bool := false
  has_checksum : Bool := false
  requires_ws_bootstrap : Bool := false
  allow_seq_gap : Bool := false
  checksum_fn : Option ChecksumFn := none
  checksum_top_n : Nat := 25

/-- `KucoinAdapter::caps` (KucoinAdapter.cpp lines 149-161): RestAnchored,
bootstrap required, and `allow_seq_gap = true`. -/
def kucoinCaps : VenueCaps :=
  { sync_mode := SyncMode.RestAnchored
    ws_sends_snapshot := false
    has_checksum := false
    requires_ws_bootstrap := true
    allow_seq_gap := true }

/-- The hot-path surface of a venue adapter (VenueAdapter.hpp), abstracted
over the raw message type: classifiers return `Bool`, parsers return the
parsed value or `none` (the C++ `bool parse(..., out&)` convention). -/
structure Adapter (Msg : Type) where
  isIncremental : Msg → Bool
  isSnapshot : Msg → Bool
  parseIncremental : Msg → Option GenericIncrementalFormat
  parseWsSnapshot : Msg → Option GenericSnapshotFormat
  parseSnapshot : Msg → Option GenericSnapshotFormat

/-- `GenericFeedHandler::SyncState` (GenericFeedHandler.hpp). -/
inductive HSyncState where
  | DISCONNECTED
  | CONNECTING
  | BOOTSTRAPPING
  | WAIT_REST_SNAPSHOT
  | WAIT_WS_SNAPSHOT
  | WAIT_BRIDGE
  | SYNCED
deriving DecidableEq, Repr

/-- Default of `GenericFeedHandler::max_buffer_` (GenericFeedHandler.hpp
line 117). -/
def maxBufferDefault : Nat := 10000

/-- The reactor-visible data of `GenericFeedHandler`: sync state, bounded
incremental buffer, the owned controller and the resolved capability
flags.  Clients, timers and the persist sink are connection-lifecycle
machinery outside this model. -/
structure FeedHandler (Msg : Type) where
  state : HSyncState := HSyncState.DISCONNECTED
  buffer : List Msg := []
  ctrl : OrderBookController
  caps : VenueCaps := {}
  max_buffer : Nat := maxBufferDefault

/-- `GenericFeedHandler::restartSync` (GenericFeedHandler.cpp lines
359-376): clear the buffer, reset the controller, go to `CONNECTING` (the
forced WS close and the 200 ms reconnect timer are I/O, not state). -/
def restartSync {Msg : Type} (h : FeedHandler Msg) : FeedHandler Msg :=
  { h with
    buffer := []
    ctrl := h.ctrl.resetBook
    state := HSyncState.CONNECTING }

/-- Loop body of `GenericFeedHandler::drainBufferedIncrementals`: walk the
buffered payloads in order, re-classify and re-parse each, feed parses to
the controller; stop (reporting that a restart is required) on the first
`NeedResync`. -/
def drainAux {Msg : Type} (a : Adapter Msg) (c : OrderBookController) :
    List Msg → OrderBookController × Bool
  | [] => (c, false)
  | m :: rest =>
    match (if a.isIncremental m then a.parseIncremental m else none) with
    | none => drainAux a c rest
    | some inc =>
      match c.onIncrement inc with
      | (OrderBookController.Action.NeedResync, c1) => (c1, true)
      | (_, c1) => drainAux a c1 rest

/-- `GenericFeedHandler::drainBufferedIncrementals` (lines 226-247): the
whole buffer is consumed either way; a mid-drain `NeedResync` enters
`restartSync`. -/
def drainBuffered {Msg : Type} (a : Adapter Msg) (h : FeedHandler Msg) :
    FeedHandler Msg :=
  match drainAux a h.ctrl h.buffer with
  | (c1, true) => restartSync { h with ctrl := c1, buffer := [] }
  | (c1, false) => { h with ctrl := c1, buffer := [] }

/-- `GenericFeedHandler::onSnapshotResponse` (lines 192-224).  Note the
source discards the result of `controller_->onSnapshot` and moves to
`WAIT_BRIDGE` unconditionally. -/
def onSnapshotResponse {Msg : Type} (a : Adapter Msg) (h : FeedHandler Msg)
    (body : Msg) : FeedHandler Msg :=
  match a.parseSnapshot body with
  | none => restartSync h
  | some snap =>
    let kind := if h.caps.sync_mode = SyncMode.RestAnchored then
        BaselineKind.RestAnchored
      else BaselineKind.WsAuthoritative
    let c1 := (h.ctrl.onSnapshot snap kind).2
    let h2 := drainBuffered a { h with ctrl := c1, state := HSyncState.WAIT_BRIDGE }
    if h2.ctrl.isSynced then { h2 with state := HSyncState.SYNCED } else h2

/-- Combined classifier+parser used for WS snapshots:
`a.isSnapshot(msg) && a.parseWsSnapshot(msg, snap)`. -/
def wsSnapParse {Msg : Type} (a : Adapter Msg) (m : Msg) :
    Option GenericSnapshotFormat :=
  if a.isSnapshot m then a.parseWsSnapshot m else none

/-- `WAIT_BRIDGE` / `SYNCED` part of `GenericFeedHandler::onWSMessage`
(lines 289-353): interrupting WS snapshot re-baseline, RestAnchored
buffered bridging, or steady-state apply. -/
def bridgeOrSynced {Msg : Type} (a : Adapter Msg) (h : FeedHandler Msg)
    (m : Msg) : FeedHandler Msg :=
  match (if h.caps.ws_sends_snapshot then wsSnapParse a m else none) with
  | some snap =>
    let c1 := (h.ctrl.onSnapshot snap BaselineKind.WsAuthoritative).2
    { h with
      ctrl := c1
      buffer := []
      state := if c1.isSynced then HSyncState.SYNCED
        else HSyncState.WAIT_BRIDGE }
  | none =>
    if h.caps.sync_mode = SyncMode.RestAnchored ∧
        h.state = HSyncState.WAIT_BRIDGE then
      if a.isIncremental m then
        if h.buffer.length < h.max_buffer then
          let h2 := drainBuffered a { h with buffer := h.buffer ++ [m] }
          if h2.ctrl.isSynced then { h2 with state := HSyncState.SYNCED }
          else h2
        else restartSync h
      else h
    else
      match (if a.isIncremental m then a.parseIncremental m else none) with
      | none => h
      | some inc =>
        match h.ctrl.onIncrement inc with
        | (OrderBookController.Action.NeedResync, c1) =>
          restartSync { h with ctrl := c1 }
        | (_, c1) =>
          if h.state = HSyncState.WAIT_BRIDGE ∧ c1.isSynced then
            { h with ctrl := c1, state := HSyncState.SYNCED }
          else { h with ctrl := c1 }

/-- `GenericFeedHandler::onWSMessage` (lines 249-357). -/
def onWSMessage {Msg : Type} (a : Adapter Msg) (h : FeedHandler Msg)
    (m : Msg) : FeedHandler Msg :=
  match h.state with
  | HSyncState.WAIT_REST_SNAPSHOT =>
    if a.isIncremental m then
      if h.buffer.length < h.max_buffer then
        { h with buffer := h.buffer ++ [m] }
      else restartSync h
    else h
  | HSyncState.WAIT_WS_SNAPSHOT =>
    match wsSnapParse a m with
    | some snap =>
      let c1 := (h.ctrl.onSnapshot snap BaselineKind.WsAuthoritative).2
      let h2 := drainBuffered a
        { h with ctrl := c1, state := HSyncState.WAIT_BRIDGE }
      if h2.ctrl.isSynced then { h2 with state := HSyncState.SYNCED } else h2
    | none =>
      if a.isIncremental m then
        if h.buffer.length < h.max_buffer then
          { h with buffer := h.buffer ++ [m] }
        else restartSync h
      else h
  | HSyncState.WAIT_BRIDGE => bridgeOrSynced a h m
  | HSyncState.SYNCED => bridgeOrSynced a h m
  | _ => h

/-- A C++ `std::string` as its byte sequence. -/
abbrev ByteStr := List Nat

/-- A level as read by the checksum engine: the venue's original textual
price and quantity (spec section 3: "The string form is retained only when
the checksum algorithm requires the venue's original textual
representation"). -/
structure StrLevel where
  price : ByteStr
  quantity : ByteStr

/-- Modelled from the spec: `class OrderBook` (OrderBook.hpp is not under
src/; OrderBookController.hpp includes it and CheckSumUtils.hpp reads it).
Spec section 3: a bid side and an ask side, each an ordered sequence of
distinct price levels.  Only the read surface used by `checkBitgetCRC32`
is needed here. -/
structure OrderBook where
  bids : List StrLevel
  asks : List StrLevel

/-- Modelled from the spec: `OrderBook::bid_ptr(i)` per the comment in
CheckSumUtils.hpp ("Need read access to top levels. returning nullptr if i
out of range / empty"): the i-th best bid or none. -/
def OrderBook.bid_ptr (b : OrderBook) (i : Nat) : Option StrLevel :=
  b.bids[i]?

/-- Modelled from the spec: `OrderBook::ask_ptr(i)`, the i-th best ask or
none. -/
def OrderBook.ask_ptr (b : OrderBook) (i : Nat) : Option StrLevel :=
  b.asks[i]?

/-- One bit step of the reflected CRC-32 (polynomial 0xEDB88320), as
computed by `boost::crc_32_type`. -/
def crc32Round (crc : Nat) : Nat :=
  if crc % 2 = 1 then (crc / 2) ^^^ 0xEDB88320 else crc / 2

/-- Eight bit steps. -/
def crc32Bits : Nat → Nat → Nat
  | 0, crc => crc
  | n + 1, crc => crc32Bits n (crc32Round crc)

/-- `boost::crc_32_type::process_byte`. -/
def crc32ProcessByte (crc b : Nat) : Nat := crc32Bits 8 (crc ^^^ b % 256)

/-- `CRC32Checksum` (CheckSumUtils.hpp lines 15-19): standard CRC-32,
initial value 0xFFFFFFFF, final xor 0xFFFFFFFF. -/
def CRC32Checksum (s : ByteStr) : Nat :=
  (List.foldl crc32ProcessByte 0xFFFFFFFF s) ^^^ 0xFFFFFFFF

/-- `CRC32ToSigned` (CheckSumUtils.hpp lines 21-23):
`static_cast<int32_t>(u)`, the bit pattern preserved. -/
def CRC32ToSigned (u : Nat) : Int :=
  if u < 2 ^ 31 then (u : Int) else (u : Int) - 2 ^ 32

/-- The `append` lambda of `checkBitgetCRC32`: push ':' (byte 58) unless
this is the first token, then append the token. -/
def appendTok (st : ByteStr × Bool) (tok : ByteStr) : ByteStr × Bool :=
  ((if st.2 then st.1 else st.1 ++ [58]) ++ tok, false)

/-- One iteration of the `checkBitgetCRC32` loop at index i: append the
i-th bid's price and quantity if present, then the i-th ask's. -/
def bitgetStep (book : OrderBook) (st : ByteStr × Bool) (i : Nat) :
    ByteStr × Bool :=
  let st1 := match book.bid_ptr i with
    | some b => appendTok (appendTok st b.price) b.quantity
    | none => st
  match book.ask_ptr i with
  | some a => appendTok (appendTok st1 a.price) a.quantity
  | none => st1

/-- `checkBitgetCRC32` (CheckSumUtils.hpp lines 27-54). -/
def checkBitgetCRC32 (book : OrderBook) (expected : Int) (topN : Nat) :
    Bool :=
  let s := ((List.range topN).foldl (bitgetStep book) ([], true)).1
  decide (CRC32ToSigned (CRC32Checksum s) = expected)

/-- Token sequence named by the spec: for levels 0..topN-1, each present
bid's price string and quantity string and each present ask's price string
and quantity string. -/
def bitgetLevelToks (book : OrderBook) (i : Nat) : List ByteStr :=
  (match book.bid_ptr i with
    | some b => [b.price, b.quantity]
    | none => []) ++
  (match book.ask_ptr i with
    | some a => [a.price, a.quantity]
    | none => [])

/-- All tokens of the top-N rows, in loop order. -/
def bitgetTokens (book : OrderBook) (topN : Nat) : List ByteStr :=
  (List.range topN).flatMap (bitgetLevelToks book)

/-- Tokens joined with ':' separators, as the spec words it. -/
def joinColon : List ByteStr → ByteStr
  | [] => []
  | [t] => t
  | t :: u :: ts => t ++ 58 :: joinColon (u :: ts)

/-- Strictly-descending-by-tick relation (the bid-side order). -/
def ticksDesc (a b : Level) : Prop := b.priceTick < a.priceTick

/-- Strictly-ascending-by-tick relation (the ask-side order). -/
def ticksAsc (a b : Level) : Prop := a.priceTick < b.priceTick

/-- A book operation of the `NOrderBook` contract. -/
inductive BookOp where
  | update (s : Side) (l : Level)
  | remove (s : Side) (tick : Int)

/-- Interpret one `BookOp`. -/
def applyOp (b : NOrderBook) : BookOp → NOrderBook
  | BookOp.update s l => b.update s l
  | BookOp.remove s t => b.remove s t

/-- Interpret a sequence of book operations in order. -/
def applyOps (b : NOrderBook) (ops : List BookOp) : NOrderBook :=
  ops.foldl applyOp b

/-- The checksum gate taken by `onIncrement` passes: either no checksum
function is configured, or the venue checksum is nonzero and validates
against the post-application book. -/
def incChecksumOk (c : OrderBookController) (msg : GenericIncrementalFormat) :
    Bool :=
  match c.checksum_fn with
  | none => true
  | some f =>
    if msg.checksum = 0 then false
    else f (applyIncrementUpdate c.book msg) msg.checksum c.checksum_topN

/-- The checksum gate taken by `onSnapshot` passes. -/
def snapChecksumOk (c : OrderBookController) (msg : GenericSnapshotFormat) :
    Bool :=
  match c.checksum_fn with
  | none => true
  | some f =>
    if msg.checksum = 0 then false
    else f (snapAppliedBook c.book.depth msg) msg.checksum c.checksum_topN

/-- C1 failing input, controller: a gap-tolerant (KuCoin-capability)
controller that is Synced at expected_seq 101. -/
def c1Ctrl : OrderBookController :=
  { (OrderBookController.mkCtrl 10).setAllowSequenceGap
      kucoinCaps.allow_seq_gap with
    state := CtrlSyncState.Synced
    last_seq := 100
    expected_seq := 101 }

/-- C1 failing input, message: an incremental that opens a gap
(first_seq 105 > expected 101). -/
def c1Msg : GenericIncrementalFormat :=
  { first_seq := 105, last_seq := 106, bids := [⟨50, 1⟩] }

/-- A checksum function that always fails (any `ChecksumFn` may do so on a
mismatching book; `checkBitgetCRC32` returns false whenever the expected
value differs). -/
def alwaysFailFn : ChecksumFn := fun _ _ _ => false

/-- C2 counterexample controller: Synced, checksum-enabled. -/
def c2Ctrl : OrderBookController :=
  { book := emptyBook 2
    state := CtrlSyncState.Synced
    last_seq := 100
    expected_seq := 101
    checksum_fn := some alwaysFailFn }

/-- C2 counterexample message: covers expected_seq 101 with a nonzero
checksum that fails validation. -/
def c2Msg : GenericIncrementalFormat :=
  { first_seq := 101, last_seq := 101, checksum := 7, bids := [⟨50, 1⟩] }

/-- C2 witness controller: a bridging (REST-anchored) controller right
after the spec scenario S1 snapshot (`lastUpdateId = 107`). -/
def c2WCtrl : OrderBookController :=
  { book := emptyBook 2
    state := CtrlSyncState.WaitingBridge
    last_seq := 107
    expected_seq := 108 }

/-- C2 witness message: S1's second buffered incremental
(`U=106, u=110`), which covers 108. -/
def c2WMsg : GenericIncrementalFormat :=
  { first_seq := 106, last_seq := 110, bids := [⟨60000, 1⟩] }

/-- C3 witness snapshot (spec scenario S2 shape). -/
def c3WSnap : GenericSnapshotFormat :=
  { lastUpdateId := 1000
    bids := [⟨50000, 1⟩]
    asks := [⟨50010, 1⟩] }

/-- C3 witness controller: fresh, no checksum configured. -/
def c3WCtrl : OrderBookController := OrderBookController.mkCtrl 5

/-- C4 failing input, snapshot: parses fine, carries a nonzero checksum. -/
def c4Snap : GenericSnapshotFormat := { lastUpdateId := 10, checksum := 5 }

/-- C4 failing input, controller: checksum-enabled so that the snapshot is
rejected (`onSnapshot` returns NeedResync). -/
def c4Ctrl : OrderBookController :=
  { book := emptyBook 2, checksum_fn := some alwaysFailFn }

/-- C4 failing input, adapter: REST snapshot body parses to `c4Snap`. -/
def c4Adapter : Adapter Unit :=
  { isIncremental := fun _ => false
    isSnapshot := fun _ => false
    parseIncremental := fun _ => none
    parseWsSnapshot := fun _ => none
    parseSnapshot := fun _ => some c4Snap }

/-- C4 failing input, handler: REST-anchored, awaiting the snapshot. -/
def c4Handler : FeedHandler Unit :=
  { state := HSyncState.WAIT_REST_SNAPSHOT, ctrl := c4Ctrl }

/-- C5 witness snapshot: zero checksum while checksum is enabled. -/
def c5WSnap : GenericSnapshotFormat := { lastUpdateId := 42, checksum := 0 }

/-- C5 witness incremental: nonzero checksum that fails validation. -/
def c5WMsg : GenericIncrementalFormat :=
  { first_seq := 101, last_seq := 101, checksum := 9, asks := [⟨7, 2⟩] }

/-- C8 witness adapter: every message classifies as an incremental. -/
def c8WAdapter : Adapter Unit :=
  { isIncremental := fun _ => true
    isSnapshot := fun _ => false
    parseIncremental := fun _ => none
    parseWsSnapshot := fun _ => none
    parseSnapshot := fun _ => none }

/-- C8 witness handler: waiting on the REST snapshot with the buffer
already at its maximum. -/
def c8WHandler : FeedHandler Unit :=
  { state := HSyncState.WAIT_REST_SNAPSHOT
    buffer := [(), ()]
    ctrl := OrderBookController.mkCtrl 2
    max_buffer := 2 }

/-- C10 witness controller: Synced at last_seq 500 (spec scenario S4). -/
def c10WCtrl : OrderBookController :=
  { book := emptyBook 3
    state := CtrlSyncState.Synced
    last_seq := 500
    expected_seq := 501 }

/-- C10 witness message: S4's gapped incremental (510..515). -/
def c10WMsg : GenericIncrementalFormat :=
  { first_seq := 510, last_seq := 515, bids := [⟨1, 1⟩] }

/-- C7 counterexample: a depth-1 book whose single bid is evicted by the
better-priced update. -/
def c7Book : NOrderBook := ⟨1, [⟨100, 1⟩], []⟩

/-- C7 witness book: depth 2 with room to insert. -/
def c7WBook : NOrderBook := ⟨2, [⟨100, 1⟩], []⟩

/-- C6 witness operation list: spec scenario S6 at depth 3. -/
def c6WOps : List BookOp :=
  [ BookOp.update Side.BID ⟨100, 10⟩
  , BookOp.update Side.BID ⟨99, 10⟩
  , BookOp.update Side.BID ⟨98, 10⟩
  , BookOp.update Side.BID ⟨97, 10⟩
  , BookOp.update Side.BID ⟨101, 10⟩
  , BookOp.update Side.ASK ⟨102, 5⟩
  , BookOp.update Side.ASK ⟨102, 0⟩
  , BookOp.remove Side.BID 100 ]

/-- Every token after the first is preceded by a ':' (byte 58). -/
def prefColon : List ByteStr → ByteStr
  | [] => []
  | t :: ts => 58 :: (t ++ prefColon ts)

/-- Representation invariant of one book side: strictly ordered by R (hence
unique ticks), within depth, and no empty level retained. -/
def sideInv (R : Level → Level → Prop) (depth : Nat) (vec : List Level) :
    Prop :=
  vec.Pairwise R ∧ vec.length ≤ depth ∧ ∀ l ∈ vec, l.quantityLot ≠ 0

/-- Representation invariant of the whole book. -/
def NOrderBook.Inv (b : NOrderBook) : Prop :=
  sideInv ticksDesc b.depth b.bids ∧ sideInv ticksAsc b.depth b.asks

/-- The side list selected by a `Side` tag. -/
def sideOf (b : NOrderBook) (s : Side) : List Level :=
  match s with
  | Side.BID => b.bids
  | Side.ASK => b.asks

/-- The strict order maintained on a side. -/
def sideRel (s : Side) : Level → Level → Prop :=
  match s with
  | Side.BID => ticksDesc
  | Side.ASK => ticksAsc

/-- The lower_bound comparator used on a side for a given tick. -/
def sidePred (s : Side) (tick : Int) : Level → Bool :=
  match s with
  | Side.BID => bidPred tick
  | Side.ASK => askPred tick

/-- C1: claimed: with setAllowSequenceGap(true) (the KuCoin capability), a
WaitingBridge/Synced controller accepts an incremental whose first_seq
exceeds expected_seq by jumping expected_seq forward instead of returning
NeedResync.  The code never reads allow_seq_gap in onIncrement: at the
failing input (gap-tolerant Synced controller, expected_seq 101, message
105..106) it returns NeedResync and leaves expected_seq at 101. -/
theorem c1_allow_seq_gap_not_honored :
    kucoinCaps.allow_seq_gap = true ∧
    c1Ctrl.allow_seq_gap = true ∧
    c1Ctrl.state = CtrlSyncState.Synced ∧
    c1Ctrl.expected_seq < c1Msg.first_seq ∧
    (c1Ctrl.onIncrement c1Msg).1 = OrderBookController.Action.NeedResync ∧
    (c1Ctrl.onIncrement c1Msg).2.expected_seq = c1Ctrl.expected_seq := by
  decide

/-- C10: whenever onIncrement rejects with NeedResync because of a sequence
gap (WaitingBridge/Synced, sequence information present, message not
pre-baseline, first_seq beyond expected_seq) or because the message has
neither sequence information nor a configured checksum, the controller is
returned exactly unchanged: book, last_seq, expected_seq and state are as
before the call. -/
theorem c10_reject_atomic (c : OrderBookController)
    (msg : GenericIncrementalFormat)
    (hst : c.state = CtrlSyncState.WaitingBridge ∨
      c.state = CtrlSyncState.Synced)
    (hrej : (msg.last_seq ≠ 0 ∧ c.expected_seq ≤ msg.last_seq ∧
        c.expected_seq < msg.first_seq) ∨
      (msg.last_seq = 0 ∧ c.checksum_fn.isNone = true)) :
    c.onIncrement msg = (OrderBookController.Action.NeedResync, c) := by
  have hns : ¬ c.state = CtrlSyncState.WaitingSnapshot := by
    rcases hst with h | h <;> simp [h]
  rcases hrej with ⟨h1, h2, h3⟩ | ⟨h1, h2⟩
  · have hnot : ¬ (msg.last_seq = 0 ∧ c.checksum_fn.isNone = true) := by
      simp [h1]
    have hlt : ¬ msg.last_seq < c.expected_seq := by omega
    rcases hst with h | h <;>
      simp [OrderBookController.onIncrement, hns, hnot, h, h1, hlt, h3]
  · simp [OrderBookController.onIncrement, hns, h1, h2]

/-- C10 witness: spec scenario S4 (Synced at 500, incremental 510..515) is
rejected with the controller unchanged. -/
theorem c10_reject_atomic_witness :
    c10WCtrl.onIncrement c10WMsg =
      (OrderBookController.Action.NeedResync, c10WCtrl) :=
  c10_reject_atomic c10WCtrl c10WMsg (Or.inr rfl)
    (Or.inl ⟨by decide, by decide, by decide⟩)

/-- C2 counterexample: a Synced checksum-enabled controller and a covering
incremental (first_seq 101 ≤ expected 101 ≤ last_seq 101) whose checksum
fails validation: after the call last_seq is 0, not the message's
last_seq, because the checksum gate resets the controller after the
bridging arithmetic ran. -/
theorem c2_checksum_reset_counterexample :
    c2Ctrl.state = CtrlSyncState.Synced ∧
    c2Msg.last_seq ≠ 0 ∧
    c2Ctrl.expected_seq ≤ c2Msg.last_seq ∧
    c2Msg.first_seq ≤ c2Ctrl.expected_seq ∧
    (c2Ctrl.onIncrement c2Msg).2.last_seq ≠ c2Msg.last_seq ∧
    (c2Ctrl.onIncrement c2Msg).2.state ≠ CtrlSyncState.Synced := by
  decide

/-- C2 (amended): for a WaitingBridge/Synced controller and an incremental
with sequence information: a pre-baseline message (last_seq < expected) is
ignored with no change; a gapped message (first_seq > expected) returns
NeedResync with no change; a covering message is applied level by level,
last_seq becomes the message's last_seq, expected_seq becomes last_seq+1
and the state becomes (or stays) Synced — provided that, when a checksum
function is configured, the message carries a nonzero checksum that
validates against the post-application book. -/
theorem c2_bridging_rule (c : OrderBookController)
    (msg : GenericIncrementalFormat)
    (hst : c.state = CtrlSyncState.WaitingBridge ∨
      c.state = CtrlSyncState.Synced)
    (hseq : msg.last_seq ≠ 0) :
    (msg.last_seq < c.expected_seq →
      c.onIncrement msg = (OrderBookController.Action.None, c)) ∧
    (c.expected_seq ≤ msg.last_seq → c.expected_seq < msg.first_seq →
      c.onIncrement msg = (OrderBookController.Action.NeedResync, c)) ∧
    (c.expected_seq ≤ msg.last_seq → msg.first_seq ≤ c.expected_seq →
      incChecksumOk c msg = true →
      c.onIncrement msg =
        (OrderBookController.Action.None,
         { c with
           book := applyIncrementUpdate c.book msg
           last_seq := msg.last_seq
           expected_seq := msg.last_seq + 1
           state := CtrlSyncState.Synced })) := by
  have hns : ¬ c.state = CtrlSyncState.WaitingSnapshot := by
    rcases hst with h | h <;> simp [h]
  have hnot : ¬ (msg.last_seq = 0 ∧ c.checksum_fn.isNone = true) := by
    simp [hseq]
  refine ⟨fun hlt => ?_, fun hge hgap => ?_, fun hge hcov hok => ?_⟩
  · rcases hst with h | h <;>
      simp [OrderBookController.onIncrement, hns, hnot, h, hseq, hlt]
  · have hlt : ¬ msg.last_seq < c.expected_seq := by omega
    rcases hst with h | h <;>
      simp [OrderBookController.onIncrement, hns, hnot, h, hseq, hlt, hgap]
  · have hlt : ¬ msg.last_seq < c.expected_seq := by omega
    have hgap : ¬ c.expected_seq < msg.first_seq := by omega
    rcases hst with h | h <;>
    · simp only [OrderBookController.onIncrement, hns, hnot, h, hseq, hlt,
        hgap, if_false, if_true, ne_eq, not_false_iff, ite_false, ite_true]
      simp only [incChecksumOk] at hok
      simp only [checksumGate]
      cases hfn : c.checksum_fn with
      | none => simp [hfn, h]
      | some f =>
        rw [hfn] at hok
        by_cases hz : msg.checksum = 0
        · simp [hz] at hok
        · simp only [hz, if_false] at hok
          simp [hfn, hz, hok, h]

/-- C2 witness: spec scenario S1's second buffered incremental (106..110)
bridges the REST snapshot at 107: it is applied, last_seq becomes 110,
expected_seq 111, and the controller promotes to Synced. -/
theorem c2_bridging_rule_witness :
    c2WCtrl.onIncrement c2WMsg =
      (OrderBookController.Action.None,
       { c2WCtrl with
         book := applyIncrementUpdate c2WCtrl.book c2WMsg
         last_seq := 110
         expected_seq := 111
         state := CtrlSyncState.Synced }) :=
  (c2_bridging_rule c2WCtrl c2WMsg (Or.inl rfl) (by decide)).2.2
    (by decide) (by decide) (by decide)

/-- C4: claimed: when the controller rejects an applied REST snapshot
(onSnapshot returns NeedResync), onSnapshotResponse restarts the sync.
The code discards onSnapshot's return value: at the failing input (a
parsable snapshot whose nonzero checksum fails validation) the controller
reports NeedResync, yet the handler proceeds to WAIT_BRIDGE and drains —
restartSync would have put it in CONNECTING. -/
theorem c4_snapshot_reject_not_restarted :
    (c4Ctrl.onSnapshot c4Snap BaselineKind.RestAnchored).1 =
      OrderBookController.Action.NeedResync ∧
    (onSnapshotResponse c4Adapter c4Handler ()).state =
      HSyncState.WAIT_BRIDGE ∧
    (restartSync c4Handler).state = HSyncState.CONNECTING := by
  decide

/-- C3: onSnapshot applies the snapshot's bids sorted descending and asks
sorted ascending onto a cleared book; on checksum pass (or no checksum
configured) it returns None with last_seq = lastUpdateId, expected_seq =
last_seq + 1 and state Synced for WsAuthoritative / WaitingBridge for
RestAnchored; when the configured checksum is missing or fails validation
it returns NeedResync with the book cleared. -/
theorem c3_onSnapshot_spec (c : OrderBookController)
    (msg : GenericSnapshotFormat) (kind : BaselineKind) :
    List.Perm (List.insertionSort bidGE msg.bids) msg.bids ∧
    List.Sorted bidGE (List.insertionSort bidGE msg.bids) ∧
    List.Perm (List.insertionSort askLE msg.asks) msg.asks ∧
    List.Sorted askLE (List.insertionSort askLE msg.asks) ∧
    (snapChecksumOk c msg = true →
      c.onSnapshot msg kind =
        (OrderBookController.Action.None,
         { c with
           book := snapAppliedBook c.book.depth msg
           last_seq := msg.lastUpdateId
           expected_seq := msg.lastUpdateId + 1
           state := baselineState kind })) ∧
    (snapChecksumOk c msg = false →
      (c.onSnapshot msg kind).1 = OrderBookController.Action.NeedResync ∧
      (c.onSnapshot msg kind).2.book.bids = [] ∧
      (c.onSnapshot msg kind).2.book.asks = [] ∧
      (c.onSnapshot msg kind).2.state = CtrlSyncState.WaitingSnapshot) := by
  refine ⟨List.perm_insertionSort bidGE msg.bids,
    List.sorted_insertionSort bidGE msg.bids,
    List.perm_insertionSort askLE msg.asks,
    List.sorted_insertionSort askLE msg.asks, fun hok => ?_, fun hfail => ?_⟩
  · simp only [snapChecksumOk] at hok
    cases hfn : c.checksum_fn with
    | none =>
      simp [OrderBookController.onSnapshot, hfn,
        OrderBookController.resetBook, NOrderBook.clear]
    | some f =>
      rw [hfn] at hok
      by_cases hz : msg.checksum = 0
      · simp [hz] at hok
      · simp only [hz, if_false] at hok
        simp [OrderBookController.onSnapshot, hfn, hz, hok,
          OrderBookController.resetBook, NOrderBook.clear]
  · simp only [snapChecksumOk] at hfail
    cases hfn : c.checksum_fn with
    | none => simp [hfn] at hfail
    | some f =>
      rw [hfn] at hfail
      by_cases hz : msg.checksum = 0
      · simp [OrderBookController.onSnapshot, hfn, hz,
          OrderBookController.resetBook, NOrderBook.clear]
      · simp only [hz, if_false] at hfail
        simp [OrderBookController.onSnapshot, hfn, hz, hfail,
          OrderBookController.resetBook, NOrderBook.clear]

/-- C3 witness: a WS-authoritative snapshot (spec scenario S2 shape, no
checksum configured) applies and promotes the fresh controller directly to
Synced with last_seq = 1000 and expected_seq = 1001. -/
theorem c3_onSnapshot_spec_witness :
    c3WCtrl.onSnapshot c3WSnap BaselineKind.WsAuthoritative =
      (OrderBookController.Action.None,
       { c3WCtrl with
         book := snapAppliedBook 5 c3WSnap
         last_seq := 1000
         expected_seq := 1001
         state := CtrlSyncState.Synced }) :=
  (c3_onSnapshot_spec c3WCtrl c3WSnap BaselineKind.WsAuthoritative).2.2.2.2.1
    (by decide)

/-- C5: with a checksum function configured, whenever a snapshot or an
incremental that reaches the checksum gate fails it (zero checksum, or
validation false over the applied book), the controller clears the book,
returns NeedResync, and its state right after the call is WaitingSnapshot
— in particular not Synced, although the incremental branches had set
Synced before validating. -/
theorem c5_checksum_failure_not_synced :
    (∀ (c : OrderBookController) (f : ChecksumFn)
      (msg : GenericSnapshotFormat) (kind : BaselineKind),
      c.checksum_fn = some f →
      (msg.checksum = 0 ∨
        f (snapAppliedBook c.book.depth msg) msg.checksum c.checksum_topN =
          false) →
      (c.onSnapshot msg kind).1 = OrderBookController.Action.NeedResync ∧
      (c.onSnapshot msg kind).2.book.bids = [] ∧
      (c.onSnapshot msg kind).2.book.asks = [] ∧
      (c.onSnapshot msg kind).2.state = CtrlSyncState.WaitingSnapshot) ∧
    (∀ (c : OrderBookController) (f : ChecksumFn)
      (msg : GenericIncrementalFormat),
      c.checksum_fn = some f →
      (c.state = CtrlSyncState.WaitingBridge ∨
        c.state = CtrlSyncState.Synced) →
      (msg.last_seq ≠ 0 →
        c.expected_seq ≤ msg.last_seq ∧ msg.first_seq ≤ c.expected_seq) →
      (msg.checksum = 0 ∨
        f (applyIncrementUpdate c.book msg) msg.checksum c.checksum_topN =
          false) →
      (c.onIncrement msg).1 = OrderBookController.Action.NeedResync ∧
      (c.onIncrement msg).2.book.bids = [] ∧
      (c.onIncrement msg).2.book.asks = [] ∧
      (c.onIncrement msg).2.state = CtrlSyncState.WaitingSnapshot) := by
  constructor
  · intro c f msg kind hfn hfail
    rcases hfail with hz | hv
    · simp [OrderBookController.onSnapshot, hfn, hz,
        OrderBookController.resetBook, NOrderBook.clear]
    · by_cases hz : msg.checksum = 0
      · simp [OrderBookController.onSnapshot, hfn, hz,
          OrderBookController.resetBook, NOrderBook.clear]
      · simp [OrderBookController.onSnapshot, hfn, hz, hv,
          OrderBookController.resetBook, NOrderBook.clear]
  · intro c f msg hfn hst hcov hfail
    have hns : ¬ c.state = CtrlSyncState.WaitingSnapshot := by
      rcases hst with h | h <;> simp [h]
    have hnot : ¬ (msg.last_seq = 0 ∧ c.checksum_fn.isNone = true) := by
      simp [hfn]
    have hgate : ∀ c1 : OrderBookController,
        c1.checksum_fn = c.checksum_fn →
        c1.checksum_topN = c.checksum_topN →
        c1.book = applyIncrementUpdate c.book msg →
        (checksumGate c1 msg.checksum).1 =
          OrderBookController.Action.NeedResync ∧
        (checksumGate c1 msg.checksum).2.book.bids = [] ∧
        (checksumGate c1 msg.checksum).2.book.asks = [] ∧
        (checksumGate c1 msg.checksum).2.state =
          CtrlSyncState.WaitingSnapshot := by
      intro c1 h1 h2 h3
      rcases hfail with hz | hv
      · simp [checksumGate, h1, hfn, hz, OrderBookController.resetBook,
          NOrderBook.clear]
      · by_cases hz : msg.checksum = 0
        · simp [checksumGate, h1, hfn, hz, OrderBookController.resetBook,
            NOrderBook.clear]
        · simp [checksumGate, h1, hfn, hz, h2, h3, hv,
            OrderBookController.resetBook, NOrderBook.clear]
    have hcs : c.checksum_fn.isNone = false := by rw [hfn]; rfl
    by_cases hseq : msg.last_seq = 0
    · rcases hst with h | h <;>
      · simp [OrderBookController.onIncrement, h, hseq, hcs]
        refine hgate _ ?_ ?_ ?_ <;> rfl
    · obtain ⟨hge, hcov⟩ := hcov hseq
      have hlt : ¬ msg.last_seq < c.expected_seq := by omega
      have hgap : ¬ c.expected_seq < msg.first_seq := by omega
      rcases hst with h | h <;>
      · simp [OrderBookController.onIncrement, h, hseq, hcs, hlt, hgap]
        refine hgate _ ?_ ?_ ?_ <;> rfl

/-- C5 witness: a zero-checksum snapshot and a checksum-failing covering
incremental are both rejected into WaitingSnapshot with an empty book. -/
theorem c5_checksum_failure_not_synced_witness :
    ((c4Ctrl.onSnapshot c5WSnap BaselineKind.WsAuthoritative).1 =
        OrderBookController.Action.NeedResync ∧
      (c4Ctrl.onSnapshot c5WSnap BaselineKind.WsAuthoritative).2.state =
        CtrlSyncState.WaitingSnapshot) ∧
    ((c2Ctrl.onIncrement c5WMsg).1 =
        OrderBookController.Action.NeedResync ∧
      (c2Ctrl.onIncrement c5WMsg).2.state =
        CtrlSyncState.WaitingSnapshot) := by
  refine ⟨?_, ?_⟩
  · have h := c5_checksum_failure_not_synced.1 c4Ctrl alwaysFailFn c5WSnap
      BaselineKind.WsAuthoritative rfl (Or.inl (by decide))
    exact ⟨h.1, h.2.2.2⟩
  · have h := c5_checksum_failure_not_synced.2 c2Ctrl alwaysFailFn c5WMsg
      rfl (Or.inr rfl) (fun _ => ⟨by decide, by decide⟩)
      (Or.inr rfl)
    exact ⟨h.1, h.2.2.2⟩

/-- restartSync leaves an empty buffer. -/
theorem restartSync_buffer {Msg : Type} (h : FeedHandler Msg) :
    (restartSync h).buffer = [] := rfl

/-- Draining consumes the whole buffer (also when it ends in a restart). -/
theorem drainBuffered_buffer {Msg : Type} (a : Adapter Msg)
    (h : FeedHandler Msg) : (drainBuffered a h).buffer = [] := by
  unfold drainBuffered
  rcases hda : drainAux a h.ctrl h.buffer with ⟨c1, b⟩
  cases b <;> simp [restartSync]

/-- The WAIT_BRIDGE / SYNCED message path never grows the buffer beyond
the configured maximum. -/
theorem bridgeOrSynced_buffer_le {Msg : Type} (a : Adapter Msg)
    (h : FeedHandler Msg) (m : Msg)
    (hlen : h.buffer.length ≤ h.max_buffer) :
    (bridgeOrSynced a h m).buffer.length ≤ h.max_buffer := by
  unfold bridgeOrSynced
  cases hsw : (if h.caps.ws_sends_snapshot then wsSnapParse a m else none) with
  | some snap => simp [hsw]
  | none =>
    simp only [hsw]
    by_cases hra : h.caps.sync_mode = SyncMode.RestAnchored ∧
        h.state = HSyncState.WAIT_BRIDGE
    · obtain ⟨hra1, hra2⟩ := hra
      by_cases hinc : a.isIncremental m = true
      · by_cases hl : h.buffer.length < h.max_buffer
        · simp only [hra1, hra2, hinc, hl, and_self, if_true, ite_true]
          split <;> simp [drainBuffered_buffer]
        · simp [hra1, hra2, hinc, hl, restartSync]
      · simp [hra1, hra2, hinc, hlen]
    · simp only [hra, if_false]
      cases hpi : (if a.isIncremental m then a.parseIncremental m else none) with
      | none => simp [hpi, hlen]
      | some inc =>
        rcases hoi : h.ctrl.onIncrement inc with ⟨act, c1⟩
        cases act with
        | NeedResync => simp [hpi, hoi, restartSync]
        | None =>
          simp only [hpi, hoi]
          split <;> simp [hlen]

/-- C8: onWSMessage keeps the buffered-incremental queue within the
configured maximum (whose default is 10 000), and in the wait states
(WAIT_REST_SNAPSHOT, WAIT_WS_SNAPSHOT, RestAnchored WAIT_BRIDGE) an
incremental arriving with the buffer already full triggers restartSync
instead of being enqueued. -/
theorem c8_buffer_bounded {Msg : Type} (a : Adapter Msg)
    (h : FeedHandler Msg) (m : Msg)
    (hlen : h.buffer.length ≤ h.max_buffer) :
    (onWSMessage a h m).buffer.length ≤ h.max_buffer ∧
    (h.buffer.length = h.max_buffer → a.isIncremental m = true →
      (h.state = HSyncState.WAIT_REST_SNAPSHOT ∨
       (h.state = HSyncState.WAIT_WS_SNAPSHOT ∧ wsSnapParse a m = none) ∨
       (h.state = HSyncState.WAIT_BRIDGE ∧
        h.caps.sync_mode = SyncMode.RestAnchored ∧
        (h.caps.ws_sends_snapshot = false ∨ wsSnapParse a m = none))) →
      onWSMessage a h m = restartSync h) ∧
    maxBufferDefault = 10000 := by
  refine ⟨?_, ?_, rfl⟩
  · cases hS : h.state with
    | WAIT_REST_SNAPSHOT =>
      by_cases hinc : a.isIncremental m = true
      · by_cases hl : h.buffer.length < h.max_buffer
        · simp [onWSMessage, hS, hinc, hl]
          omega
        · simp [onWSMessage, hS, hinc, hl, restartSync]
      · simp [onWSMessage, hS, hinc, hlen]
    | WAIT_WS_SNAPSHOT =>
      cases hsw : wsSnapParse a m with
      | some snap =>
        simp only [onWSMessage, hS, hsw]
        split <;> simp [drainBuffered_buffer]
      | none =>
        by_cases hinc : a.isIncremental m = true
        · by_cases hl : h.buffer.length < h.max_buffer
          · simp [onWSMessage, hS, hsw, hinc, hl]
            omega
          · simp [onWSMessage, hS, hsw, hinc, hl, restartSync]
        · simp [onWSMessage, hS, hsw, hinc, hlen]
    | WAIT_BRIDGE =>
      simpa [onWSMessage, hS] using bridgeOrSynced_buffer_le a h m hlen
    | SYNCED =>
      simpa [onWSMessage, hS] using bridgeOrSynced_buffer_le a h m hlen
    | DISCONNECTED => simp [onWSMessage, hS, hlen]
    | CONNECTING => simp [onWSMessage, hS, hlen]
    | BOOTSTRAPPING => simp [onWSMessage, hS, hlen]
  · intro hfull hinc hcase
    have hnl : ¬ h.buffer.length < h.max_buffer := by omega
    rcases hcase with hS | ⟨hS, hsw⟩ | ⟨hS, hra, hnosnap⟩
    · simp [onWSMessage, hS, hinc, hnl]
    · simp [onWSMessage, hS, hsw, hinc, hnl]
    · have hscrut : (if h.caps.ws_sends_snapshot then wsSnapParse a m
          else none) = none := by
        rcases hnosnap with hw | hw <;> simp [hw]
      simp [onWSMessage, hS, bridgeOrSynced, hscrut, hra, hinc, hnl]

/-- C8 witness: an incremental arriving while WAIT_REST_SNAPSHOT with the
buffer at its maximum (2 of 2) makes the handler restart instead of
enqueueing. -/
theorem c8_buffer_bounded_witness :
    onWSMessage c8WAdapter c8WHandler () = restartSync c8WHandler :=
  (c8_buffer_bounded c8WAdapter c8WHandler () (by decide)).2.1 (by decide)
    (by decide) (Or.inl (by decide))

/-- Folding appendTok from a non-first state prefixes every token with a
colon. -/
theorem foldl_appendTok_false (toks : List ByteStr) : ∀ s : ByteStr,
    toks.foldl appendTok (s, false) = (s ++ prefColon toks, false) := by
  induction toks with
  | nil => intro s; simp [prefColon]
  | cons t ts ih =>
    intro s
    simp only [List.foldl_cons, appendTok, if_false, Bool.false_eq_true,
      ite_false]
    rw [ih]
    simp [prefColon, List.append_assoc]

/-- joinColon in terms of prefColon. -/
theorem joinColon_cons (t : ByteStr) (ts : List ByteStr) :
    joinColon (t :: ts) = t ++ prefColon ts := by
  induction ts generalizing t with
  | nil => simp [joinColon, prefColon]
  | cons u us ih => simp [joinColon, prefColon, ih u]

/-- Folding appendTok from the first-token state builds the
colon-separated join. -/
theorem fst_foldl_appendTok_true (toks : List ByteStr) (s : ByteStr) :
    (toks.foldl appendTok (s, true)).1 = s ++ joinColon toks := by
  cases toks with
  | nil => simp [joinColon]
  | cons t ts =>
    simp only [List.foldl_cons, appendTok, if_true, ite_true]
    rw [foldl_appendTok_false]
    simp [joinColon_cons, List.append_assoc]

/-- One loop iteration of checkBitgetCRC32 folds the row's tokens. -/
theorem bitgetStep_eq (book : OrderBook) (st : ByteStr × Bool) (i : Nat) :
    bitgetStep book st i = (bitgetLevelToks book i).foldl appendTok st := by
  unfold bitgetStep bitgetLevelToks
  cases book.bid_ptr i <;> cases book.ask_ptr i <;> simp

/-- The whole loop folds the flattened token list. -/
theorem foldl_bitgetStep (book : OrderBook) (is : List Nat) :
    ∀ st : ByteStr × Bool,
    is.foldl (bitgetStep book) st =
      (is.flatMap (bitgetLevelToks book)).foldl appendTok st := by
  induction is with
  | nil => intro st; simp
  | cons i is ih =>
    intro st
    simp only [List.foldl_cons, List.flatMap_cons, List.foldl_append]
    rw [bitgetStep_eq, ih]

/-- C9: checkBitgetCRC32 returns true exactly when the CRC32 of the
colon-joined top-N token string (each present bid's price and quantity
then each present ask's price and quantity, levels 0..topN-1),
reinterpreted from unsigned 32-bit to signed 32-bit with the bit pattern
preserved, equals the venue-supplied expected value. -/
theorem c9_checkBitgetCRC32_spec (book : OrderBook) (expected : Int)
    (topN : Nat) :
    checkBitgetCRC32 book expected topN = true ↔
      CRC32ToSigned (CRC32Checksum (joinColon (bitgetTokens book topN))) =
        expected := by
  unfold checkBitgetCRC32 bitgetTokens
  rw [foldl_bitgetStep, fst_foldl_appendTok_true]
  simp

/-- The head of a nonempty dropWhile fails the predicate. -/
theorem dropWhile_head_false {p : Level → Bool} {l : List Level} {x : Level}
    {rest : List Level} (h : l.dropWhile p = x :: rest) : p x = false := by
  induction l with
  | nil => simp [List.dropWhile] at h
  | cons a t ih =>
    rw [List.dropWhile_cons] at h
    by_cases hpa : p a = true
    · rw [if_pos hpa] at h; exact ih h
    · rw [if_neg hpa] at h
      cases h
      simpa using hpa

/-- takeWhile eats the whole list when dropWhile is empty. -/
theorem takeWhile_of_dropWhile_nil {p : Level → Bool} {vec : List Level}
    (h : vec.dropWhile p = []) : vec.takeWhile p = vec := by
  have h2 := List.takeWhile_append_dropWhile p vec
  rw [h, List.append_nil] at h2
  exact h2

/-- The takeWhile/dropWhile split reassembles the list. -/
theorem takeWhile_cons_split {p : Level → Bool} {vec : List Level}
    {x : Level} {rest : List Level} (h : vec.dropWhile p = x :: rest) :
    vec.takeWhile p ++ x :: rest = vec := by
  rw [← h]
  exact List.takeWhile_append_dropWhile p vec

/-- Sorted insertion of a strictly-smaller-keyed prefix, a new level, and
the strictly-larger-keyed suffix stays pairwise sorted. -/
theorem updateSide_pairwise (key : Level → Int) (L : Level)
    (p : Level → Bool)
    (hp : ∀ x, p x = true ↔ key x < key L)
    (hkey : ∀ a b : Level, a.priceTick = b.priceTick → key a = key b)
    (hkeq : ∀ x : Level, x.priceTick = L.priceTick ↔ key x = key L)
    (depth : Nat) (vec : List Level)
    (hs : vec.Pairwise (fun a b => key a < key b)) :
    (updateSide depth p L vec).Pairwise (fun a b => key a < key b) := by
  unfold updateSide
  cases hdw : vec.dropWhile p with
  | nil =>
    by_cases hlen : vec.length < depth
    · simp only [hlen, ite_true, if_true]
      have hpre := takeWhile_of_dropWhile_nil hdw
      rw [hpre, List.pairwise_append]
      refine ⟨hs, List.pairwise_singleton _ _, ?_⟩
      intro a ha b hb
      rw [List.mem_singleton] at hb
      subst hb
      have hpa : p a = true := by
        rw [← hpre] at ha
        exact List.mem_takeWhile_imp ha
      exact (hp a).1 hpa
    · simp only [hlen, ite_false, if_false]
      exact hs
  | cons x rest =>
    have hvec := takeWhile_cons_split hdw
    have hpxf : p x = false := dropWhile_head_false hdw
    have hprep : ∀ a ∈ vec.takeWhile p, p a = true := fun a ha =>
      List.mem_takeWhile_imp ha
    obtain ⟨hpreP, hsufP, hcross⟩ := (List.pairwise_append).1 (hvec ▸ hs)
    have hxnotlt : ¬ key x < key L := by
      intro hlt
      rw [← hp x, hpxf] at hlt
      exact Bool.false_ne_true hlt
    dsimp only
    by_cases hxt : x.priceTick = L.priceTick
    · rw [if_pos hxt, List.pairwise_append]
      have hknew : key ⟨x.priceTick, L.quantityLot⟩ = key x := hkey _ _ rfl
      rw [List.pairwise_cons] at hsufP
      obtain ⟨hx1, hx2⟩ := hsufP
      refine ⟨hpreP, ?_, ?_⟩
      · rw [List.pairwise_cons]
        exact ⟨fun b hb => by rw [hknew]; exact hx1 b hb, hx2⟩
      · intro a ha b hb
        rcases List.mem_cons.1 hb with rfl | hb
        · rw [hknew]
          exact hcross a ha x (List.mem_cons_self x rest)
        · exact hcross a ha b (List.mem_cons_of_mem _ hb)
    · have hkxne : key x ≠ key L := fun he => hxt ((hkeq x).2 he)
      have hLx : key L < key x := by
        rcases lt_trichotomy (key x) (key L) with h | h | h
        · exact absurd h hxnotlt
        · exact absurd h hkxne
        · exact h
      have hins : (vec.takeWhile p ++ L :: x :: rest).Pairwise
          (fun a b => key a < key b) := by
        rw [List.pairwise_append]
        rw [List.pairwise_cons] at hsufP
        refine ⟨hpreP, ?_, ?_⟩
        · rw [List.pairwise_cons]
          constructor
          · intro b hb
            rcases List.mem_cons.1 hb with rfl | hb
            · exact hLx
            · exact lt_trans hLx (hsufP.1 b hb)
          · rw [List.pairwise_cons]
            exact hsufP
        · intro a ha b hb
          have haL : key a < key L := (hp a).1 (hprep a ha)
          rcases List.mem_cons.1 hb with rfl | hb
          · exact haL
          · exact hcross a ha b hb
      by_cases hlen : vec.length < depth
      · rw [if_neg hxt, if_pos hlen]
        exact hins
      · rw [if_neg hxt, if_neg hlen]
        exact List.Pairwise.sublist (List.dropLast_sublist _) hins

/-- updateSide never exceeds the depth bound. -/
theorem updateSide_length (p : Level → Bool) (L : Level) (depth : Nat)
    (vec : List Level) (hlen : vec.length ≤ depth) :
    (updateSide depth p L vec).length ≤ depth := by
  unfold updateSide
  cases hdw : vec.dropWhile p with
  | nil =>
    by_cases hl : vec.length < depth
    · simp only [hl, ite_true, if_true]
      rw [takeWhile_of_dropWhile_nil hdw]
      simp only [List.length_append, List.length_singleton]
      omega
    · simp only [hl, ite_false, if_false]
      exact hlen
  | cons x rest =>
    have hvec := takeWhile_cons_split hdw
    have hlens := congrArg List.length hvec
    rw [List.length_append] at hlens
    simp only [List.length_cons] at hlens
    dsimp only
    by_cases hxt : x.priceTick = L.priceTick
    · rw [if_pos hxt]
      simp only [List.length_append, List.length_cons]
      omega
    · by_cases hl : vec.length < depth
      · rw [if_neg hxt, if_pos hl]
        simp only [List.length_append, List.length_cons]
        omega
      · rw [if_neg hxt, if_neg hl, List.length_dropLast]
        simp only [List.length_append, List.length_cons]
        omega

/-- Every element of an updated side comes from the old side or carries
the new level's quantity. -/
theorem updateSide_mem (p : Level → Bool) (L : Level) (depth : Nat)
    (vec : List Level) (y : Level) (hy : y ∈ updateSide depth p L vec) :
    y ∈ vec ∨ y.quantityLot = L.quantityLot := by
  unfold updateSide at hy
  cases hdw : vec.dropWhile p with
  | nil =>
    rw [hdw] at hy
    dsimp only at hy
    by_cases hl : vec.length < depth
    · rw [if_pos hl] at hy
      rcases List.mem_append.1 hy with h | h
      · exact Or.inl ((List.takeWhile_sublist p).mem h)
      · rw [List.mem_singleton] at h
        subst h
        exact Or.inr rfl
    · rw [if_neg hl] at hy
      exact Or.inl hy
  | cons x rest =>
    rw [hdw] at hy
    dsimp only at hy
    have hvec := takeWhile_cons_split hdw
    have hpre : ∀ a ∈ vec.takeWhile p, a ∈ vec := fun a ha =>
      (List.takeWhile_sublist p).mem ha
    have hrest : ∀ b ∈ rest, b ∈ vec := fun b hb => by
      rw [← hvec]
      exact List.mem_append_right _ (List.mem_cons_of_mem _ hb)
    by_cases hxt : x.priceTick = L.priceTick
    · rw [if_pos hxt] at hy
      rcases List.mem_append.1 hy with h | h
      · exact Or.inl (hpre y h)
      · rcases List.mem_cons.1 h with rfl | h
        · exact Or.inr rfl
        · exact Or.inl (hrest y h)
    · have hmem : y ∈ vec.takeWhile p ++ L :: x :: rest →
          y ∈ vec ∨ y.quantityLot = L.quantityLot := by
        intro h
        rcases List.mem_append.1 h with h | h
        · exact Or.inl (hpre y h)
        · rcases List.mem_cons.1 h with rfl | h
          · exact Or.inr rfl
          · rcases List.mem_cons.1 h with rfl | h
            · refine Or.inl ?_
              rw [← hvec]
              exact List.mem_append_right _ (List.mem_cons_self _ _)
            · exact Or.inl (hrest y h)
      by_cases hl : vec.length < depth
      · rw [if_neg hxt, if_pos hl] at hy
        exact hmem hy
      · rw [if_neg hxt, if_neg hl] at hy
        exact hmem ((List.dropLast_sublist _).mem hy)

/-- removeSide yields a sublist of the side. -/
theorem removeSide_sublist (p : Level → Bool) (tick : Int)
    (vec : List Level) : (removeSide p tick vec).Sublist vec := by
  unfold removeSide
  cases hdw : vec.dropWhile p with
  | nil => exact List.Sublist.refl vec
  | cons x rest =>
    dsimp only
    by_cases hxt : x.priceTick = tick
    · rw [if_pos hxt]
      have hvec := takeWhile_cons_split hdw
      have h1 : (vec.takeWhile p ++ rest).Sublist
          (vec.takeWhile p ++ x :: rest) :=
        List.Sublist.append_left (List.sublist_cons_self x rest) _
      rw [hvec] at h1
      exact h1
    · rw [if_neg hxt]

/-- Bid-side instantiation of the sorted-insert lemma (key = negated
tick). -/
theorem updateSide_pairwise_desc (L : Level) (depth : Nat)
    (vec : List Level) (hs : vec.Pairwise ticksDesc) :
    (updateSide depth (bidPred L.priceTick) L vec).Pairwise ticksDesc := by
  have h1 : vec.Pairwise (fun a b : Level => -a.priceTick < -b.priceTick) :=
    hs.imp (fun hab => by simp only [ticksDesc] at hab; omega)
  have h2 := updateSide_pairwise (fun lv => -lv.priceTick) L
    (bidPred L.priceTick)
    (fun x => by dsimp only; simp only [bidPred, decide_eq_true_eq]; omega)
    (fun a b hab => by dsimp only; rw [hab])
    (fun x => by dsimp only; omega)
    depth vec h1
  exact h2.imp (fun hab => by dsimp only at hab; simp only [ticksDesc]; omega)

/-- Ask-side instantiation of the sorted-insert lemma (key = tick). -/
theorem updateSide_pairwise_asc (L : Level) (depth : Nat)
    (vec : List Level) (hs : vec.Pairwise ticksAsc) :
    (updateSide depth (askPred L.priceTick) L vec).Pairwise ticksAsc := by
  have h1 : vec.Pairwise (fun a b : Level => a.priceTick < b.priceTick) :=
    hs.imp (fun hab => by simp only [ticksAsc] at hab; omega)
  have h2 := updateSide_pairwise (fun lv => lv.priceTick) L
    (askPred L.priceTick)
    (fun x => by dsimp only; simp only [askPred, decide_eq_true_eq])
    (fun a b hab => hab)
    (fun x => Iff.rfl)
    depth vec h1
  exact h2.imp (fun hab => hab)

/-- A sublist keeps a side's invariant. -/
theorem sideInv_sublist {R : Level → Level → Prop} {depth : Nat}
    {v1 v2 : List Level} (hsub : v1.Sublist v2)
    (h : sideInv R depth v2) : sideInv R depth v1 :=
  ⟨List.Pairwise.sublist hsub h.1, le_trans hsub.length_le h.2.1,
    fun l hl => h.2.2 l (hsub.mem hl)⟩

/-- `NOrderBook::remove` preserves the book invariant. -/
theorem remove_inv (b : NOrderBook) (s : Side) (tick : Int) (h : b.Inv) :
    (b.remove s tick).Inv := by
  obtain ⟨hb, ha⟩ := h
  cases s with
  | BID => exact ⟨sideInv_sublist (removeSide_sublist _ _ _) hb, ha⟩
  | ASK => exact ⟨hb, sideInv_sublist (removeSide_sublist _ _ _) ha⟩

/-- `NOrderBook::update` preserves the book invariant. -/
theorem update_inv (b : NOrderBook) (s : Side) (l : Level) (h : b.Inv) :
    (b.update s l).Inv := by
  by_cases he : l.isEmpty = true
  · rw [NOrderBook.update.eq_def, if_pos he]
    exact remove_inv b s l.priceTick h
  · rw [NOrderBook.update.eq_def, if_neg he]
    have hq : l.quantityLot ≠ 0 := by
      simpa [Level.isEmpty] using he
    obtain ⟨⟨hbP, hbL, hbQ⟩, haP, haL, haQ⟩ := h
    cases s with
    | BID =>
      refine ⟨⟨?_, ?_, ?_⟩, haP, haL, haQ⟩
      · exact updateSide_pairwise_desc l b.depth b.bids hbP
      · exact updateSide_length _ l b.depth b.bids hbL
      · intro y hy
        rcases updateSide_mem _ l b.depth b.bids y hy with hmem | hqy
        · exact hbQ y hmem
        · rw [hqy]; exact hq
    | ASK =>
      refine ⟨⟨hbP, hbL, hbQ⟩, ?_, ?_, ?_⟩
      · exact updateSide_pairwise_asc l b.depth b.asks haP
      · exact updateSide_length _ l b.depth b.asks haL
      · intro y hy
        rcases updateSide_mem _ l b.depth b.asks y hy with hmem | hqy
        · exact haQ y hmem
        · rw [hqy]; exact hq

/-- Any operation sequence preserves the book invariant. -/
theorem inv_applyOps (ops : List BookOp) :
    ∀ b : NOrderBook, b.Inv → (applyOps b ops).Inv := by
  induction ops with
  | nil => intro b h; exact h
  | cons op ops ih =>
    intro b h
    refine ih (applyOp b op) ?_
    cases op with
    | update s l => exact update_inv b s l h
    | remove s t => exact remove_inv b s t h

/-- Strict pairwise descending implies the adjacent boolean check. -/
theorem pairwise_sortedDescB (l : List Level) (h : l.Pairwise ticksDesc) :
    sortedDescB l = true := by
  induction l with
  | nil => rfl
  | cons a t ih =>
    cases t with
    | nil => rfl
    | cons b t2 =>
      rw [List.pairwise_cons] at h
      have h1 : b.priceTick < a.priceTick := h.1 b (List.mem_cons_self b t2)
      have h2 := ih h.2
      simp [sortedDescB, h1, h2]

/-- Strict pairwise ascending implies the adjacent boolean check. -/
theorem pairwise_sortedAscB (l : List Level) (h : l.Pairwise ticksAsc) :
    sortedAscB l = true := by
  induction l with
  | nil => rfl
  | cons a t ih =>
    cases t with
    | nil => rfl
    | cons b t2 =>
      rw [List.pairwise_cons] at h
      have h1 : a.priceTick < b.priceTick := h.1 b (List.mem_cons_self b t2)
      have h2 := ih h.2
      simp [sortedAscB, h1, h2]

/-- The invariant makes `validate` succeed. -/
theorem inv_validate (b : NOrderBook) (h : b.Inv) : b.validate = true := by
  obtain ⟨⟨hbP, hbL, hbQ⟩, haP, haL, haQ⟩ := h
  unfold NOrderBook.validate
  simp only [Bool.and_eq_true, decide_eq_true_eq, List.all_eq_true]
  refine ⟨⟨⟨⟨⟨hbL, haL⟩, pairwise_sortedDescB _ hbP⟩,
    pairwise_sortedAscB _ haP⟩, ?_⟩, ?_⟩
  · intro l hl
    simpa [Level.isEmpty] using hbQ l hl
  · intro l hl
    simpa [Level.isEmpty] using haQ l hl

/-- C6: from an empty book of any positive depth, every sequence of
update/remove operations keeps both sides strictly sorted and unique,
retains no zero-quantity level, and keeps each side within the configured
depth: `validate` holds after every operation sequence. -/
theorem c6_book_invariants (depth : Nat) (_hd : 0 < depth)
    (ops : List BookOp) :
    (applyOps (emptyBook depth) ops).validate = true := by
  have hbase : (emptyBook depth).Inv := by
    refine ⟨⟨List.Pairwise.nil, ?_, ?_⟩, List.Pairwise.nil, ?_, ?_⟩ <;>
      simp [emptyBook]
  exact inv_validate _ (inv_applyOps ops _ hbase)

/-- C6 witness: the spec S6 operation sequence at depth 3 validates. -/
theorem c6_book_invariants_witness :
    0 < 3 ∧ (applyOps (emptyBook 3) c6WOps).validate = true :=
  ⟨by decide, c6_book_invariants 3 (by decide) c6WOps⟩

/-- takeWhile stops exactly at the first failing element. -/
theorem takeWhile_append_cons_false {p : Level → Bool} {pre : List Level}
    (h : ∀ a ∈ pre, p a = true) {q : Level} (hq : p q = false)
    (suf : List Level) : (pre ++ q :: suf).takeWhile p = pre := by
  induction pre with
  | nil => simp [List.takeWhile_cons, hq]
  | cons a t ih =>
    rw [List.cons_append, List.takeWhile_cons, h a (List.mem_cons_self a t)]
    rw [ih (fun x hx => h x (List.mem_cons_of_mem a hx))]
    simp

/-- dropWhile lands exactly on the first failing element. -/
theorem dropWhile_append_cons_false {p : Level → Bool} {pre : List Level}
    (h : ∀ a ∈ pre, p a = true) {q : Level} (hq : p q = false)
    (suf : List Level) : (pre ++ q :: suf).dropWhile p = q :: suf := by
  induction pre with
  | nil => simp [List.dropWhile_cons, hq]
  | cons a t ih =>
    rw [List.cons_append, List.dropWhile_cons, h a (List.mem_cons_self a t)]
    exact ih (fun x hx => h x (List.mem_cons_of_mem a hx))

/-- Round trip on one side: insert-or-overwrite a level then delete its
price restores the original side minus that price — provided the insert
did not evict the worst level (the side holds the price already, or is
under depth, or the new price is worse than every stored level). -/
theorem update_then_delete_side (key : Level → Int) (L : Level)
    (p : Level → Bool)
    (hp : ∀ x, p x = true ↔ key x < key L)
    (hkey : ∀ a b : Level, a.priceTick = b.priceTick → key a = key b)
    (hkeq : ∀ x : Level, x.priceTick = L.priceTick ↔ key x = key L)
    (depth : Nat) (vec : List Level)
    (hs : vec.Pairwise (fun a b => key a < key b))
    (hcase : (∃ x ∈ vec, x.priceTick = L.priceTick) ∨ vec.length < depth ∨
      ∀ x ∈ vec, p x = true) :
    removeSide p L.priceTick (updateSide depth p L vec) =
      vec.filter (fun x => !(decide (x.priceTick = L.priceTick))) := by
  have hpL : p L = false := by
    rw [Bool.eq_false_iff]
    intro hb
    exact lt_irrefl _ ((hp L).1 hb)
  cases hdw : vec.dropWhile p with
  | nil =>
    have hall : ∀ a ∈ vec, p a = true := by
      intro a ha
      rw [← takeWhile_of_dropWhile_nil hdw] at ha
      exact List.mem_takeWhile_imp ha
    have hne : ∀ a ∈ vec, ¬ a.priceTick = L.priceTick := by
      intro a ha he
      have hlt := (hp a).1 (hall a ha)
      rw [(hkeq a).1 he] at hlt
      exact lt_irrefl _ hlt
    have hfilter :
        vec.filter (fun x => !(decide (x.priceTick = L.priceTick))) = vec := by
      apply List.filter_eq_self.mpr
      intro a ha
      simp only [Bool.not_eq_true', decide_eq_false_iff_not]
      exact hne a ha
    rw [hfilter]
    by_cases hlen : vec.length < depth
    · have hupd : updateSide depth p L vec = vec ++ [L] := by
        unfold updateSide
        rw [hdw]
        dsimp only
        rw [if_pos hlen, takeWhile_of_dropWhile_nil hdw]
      rw [hupd]
      unfold removeSide
      rw [dropWhile_append_cons_false hall hpL [],
        takeWhile_append_cons_false hall hpL []]
      dsimp only
      rw [if_pos rfl, List.append_nil]
    · have hupd : updateSide depth p L vec = vec := by
        unfold updateSide
        rw [hdw]
        dsimp only
        rw [if_neg hlen]
      rw [hupd]
      unfold removeSide
      rw [hdw]
  | cons x rest =>
    have hvec := takeWhile_cons_split hdw
    have hpxf : p x = false := dropWhile_head_false hdw
    have hprep : ∀ a ∈ vec.takeWhile p, p a = true := fun a ha =>
      List.mem_takeWhile_imp ha
    obtain ⟨hpreP, hsufP, hcross⟩ := (List.pairwise_append).1 (hvec ▸ hs)
    have hxn : ¬ key x < key L := by
      intro hlt
      rw [← hp x, hpxf] at hlt
      exact Bool.false_ne_true hlt
    by_cases hxt : x.priceTick = L.priceTick
    · -- overwrite, then delete the overwritten node
      have hupd : updateSide depth p L vec =
          vec.takeWhile p ++ ⟨x.priceTick, L.quantityLot⟩ :: rest := by
        unfold updateSide
        rw [hdw]
        dsimp only
        rw [if_pos hxt]
      have hnewf : p ⟨x.priceTick, L.quantityLot⟩ = false := by
        rw [Bool.eq_false_iff]
        intro hb
        have hlt := (hp _).1 hb
        rw [hkey ⟨x.priceTick, L.quantityLot⟩ x rfl] at hlt
        exact hxn hlt
      have hrm : removeSide p L.priceTick
          (vec.takeWhile p ++ ⟨x.priceTick, L.quantityLot⟩ :: rest) =
          vec.takeWhile p ++ rest := by
        unfold removeSide
        rw [dropWhile_append_cons_false hprep hnewf rest,
          takeWhile_append_cons_false hprep hnewf rest]
        dsimp only
        rw [if_pos hxt]
      rw [hupd, hrm]
      have hfil :
          vec.filter (fun y => !(decide (y.priceTick = L.priceTick))) =
            vec.takeWhile p ++ rest := by
        conv_lhs => rw [← hvec]
        rw [List.filter_append]
        congr 1
        · apply List.filter_eq_self.mpr
          intro a ha
          simp only [Bool.not_eq_true', decide_eq_false_iff_not]
          intro he
          have hlt := (hp a).1 (hprep a ha)
          rw [(hkeq a).1 he] at hlt
          exact lt_irrefl _ hlt
        · rw [List.filter_cons, if_neg (by simp [hxt])]
          apply List.filter_eq_self.mpr
          intro b hb
          simp only [Bool.not_eq_true', decide_eq_false_iff_not]
          intro he
          rw [List.pairwise_cons] at hsufP
          have hxb := hsufP.1 b hb
          rw [(hkeq b).1 he, ← (hkeq x).1 hxt] at hxb
          exact lt_irrefl _ hxb
      rw [hfil]
    · -- the new price is absent from the side
      have hkxne : key x ≠ key L := fun he => hxt ((hkeq x).2 he)
      have hLx : key L < key x := by
        rcases lt_trichotomy (key x) (key L) with h | h | h
        · exact absurd h hxn
        · exact absurd h hkxne
        · exact h
      have hneall : ∀ a ∈ vec, ¬ a.priceTick = L.priceTick := by
        intro a ha he
        have hk := (hkeq a).1 he
        rw [← hvec] at ha
        rcases List.mem_append.1 ha with h | h
        · have hlt := (hp a).1 (hprep a h)
          rw [hk] at hlt
          exact lt_irrefl _ hlt
        · rcases List.mem_cons.1 h with rfl | h
          · exact hxt he
          · rw [List.pairwise_cons] at hsufP
            have hxa := hsufP.1 a h
            rw [hk] at hxa
            exact lt_irrefl _ (lt_trans hLx hxa)
      have hfilter :
          vec.filter (fun y => !(decide (y.priceTick = L.priceTick))) =
            vec := by
        apply List.filter_eq_self.mpr
        intro a ha
        simp only [Bool.not_eq_true', decide_eq_false_iff_not]
        exact hneall a ha
      rw [hfilter]
      by_cases hlen : vec.length < depth
      · have hupd : updateSide depth p L vec =
            vec.takeWhile p ++ L :: x :: rest := by
          unfold updateSide
          rw [hdw]
          dsimp only
          rw [if_neg hxt, if_pos hlen]
        rw [hupd]
        unfold removeSide
        rw [dropWhile_append_cons_false hprep hpL (x :: rest),
          takeWhile_append_cons_false hprep hpL (x :: rest)]
        dsimp only
        rw [if_pos rfl]
        exact hvec
      · exfalso
        rcases hcase with ⟨y, hy, hyt⟩ | hc | hc
        · exact hneall y hy hyt
        · exact hlen hc
        · have hxv : x ∈ vec := by
            rw [← hvec]
            exact List.mem_append_right _ (List.mem_cons_self x rest)
          rw [hc x hxv] at hpxf
          simp at hpxf

/-- Bid-side round trip wrapper. -/
theorem update_then_delete_bid (tp q : Int) (depth : Nat) (vec : List Level)
    (hs : vec.Pairwise ticksDesc)
    (hcase : (∃ x ∈ vec, x.priceTick = tp) ∨ vec.length < depth ∨
      ∀ x ∈ vec, bidPred tp x = true) :
    removeSide (bidPred tp) tp (updateSide depth (bidPred tp) ⟨tp, q⟩ vec) =
      vec.filter (fun x => !(decide (x.priceTick = tp))) := by
  have h1 : vec.Pairwise (fun a b : Level => -a.priceTick < -b.priceTick) :=
    hs.imp (fun hab => by simp only [ticksDesc] at hab; omega)
  exact update_then_delete_side (fun lv => -lv.priceTick) ⟨tp, q⟩
    (bidPred tp)
    (fun x => by dsimp only; simp only [bidPred, decide_eq_true_eq]; omega)
    (fun a b hab => by dsimp only; rw [hab])
    (fun x => by dsimp only; omega)
    depth vec h1 hcase

/-- Ask-side round trip wrapper. -/
theorem update_then_delete_ask (tp q : Int) (depth : Nat) (vec : List Level)
    (hs : vec.Pairwise ticksAsc)
    (hcase : (∃ x ∈ vec, x.priceTick = tp) ∨ vec.length < depth ∨
      ∀ x ∈ vec, askPred tp x = true) :
    removeSide (askPred tp) tp (updateSide depth (askPred tp) ⟨tp, q⟩ vec) =
      vec.filter (fun x => !(decide (x.priceTick = tp))) := by
  have h1 : vec.Pairwise (fun a b : Level => a.priceTick < b.priceTick) :=
    hs.imp (fun hab => by simp only [ticksAsc] at hab; omega)
  exact update_then_delete_side (fun lv => lv.priceTick) ⟨tp, q⟩
    (askPred tp)
    (fun x => by dsimp only; simp only [askPred, decide_eq_true_eq])
    (fun a b hab => hab)
    (fun x => Iff.rfl)
    depth vec h1 hcase

/-- C7 counterexample: the depth-1 book [(100,1)] is a valid book state;
update(BID,(101,5)) evicts the worst level 100, so the following
update(BID,(101,0)) leaves an empty side — not the original book minus
price 101 (which would be [(100,1)] untouched). -/
theorem c7_eviction_counterexample :
    c7Book.validate = true ∧
    ((c7Book.update Side.BID ⟨101, 5⟩).update Side.BID ⟨101, 0⟩).bids = [] ∧
    c7Book.bids.filter (fun x => !(decide (x.priceTick = 101))) =
      [⟨100, 1⟩] := by
  decide

/-- C7 (amended): on a sorted side, update(side,(p,q>0)) followed by
update(side,(p,0)) yields the book with every level at price p removed
and nothing else changed — provided the first update does not evict a
level, i.e. the side already holds price p, or is below depth, or p is
worse than every stored level. -/
theorem c7_update_then_delete (b : NOrderBook) (s : Side) (tp q : Int)
    (hq : 0 < q)
    (hs : (sideOf b s).Pairwise (sideRel s))
    (hcase : (∃ x ∈ sideOf b s, x.priceTick = tp) ∨
      (sideOf b s).length < b.depth ∨
      ∀ x ∈ sideOf b s, sidePred s tp x = true) :
    (b.update s ⟨tp, q⟩).update s ⟨tp, 0⟩ =
      (match s with
       | Side.BID =>
         { b with bids := b.bids.filter (fun x => !(decide (x.priceTick = tp))) }
       | Side.ASK =>
         { b with asks := b.asks.filter (fun x => !(decide (x.priceTick = tp))) }) := by
  have hne : ¬ ((⟨tp, q⟩ : Level).isEmpty = true) := by
    simp only [Level.isEmpty, decide_eq_true_eq]
    omega
  have hemp : ((⟨tp, 0⟩ : Level).isEmpty = true) := by
    simp [Level.isEmpty]
  cases s with
  | BID =>
    rw [NOrderBook.update.eq_def, if_pos hemp]
    dsimp only [NOrderBook.remove]
    rw [NOrderBook.update.eq_def, if_neg hne]
    dsimp only
    congr 1
    exact update_then_delete_bid tp q b.depth b.bids hs hcase
  | ASK =>
    rw [NOrderBook.update.eq_def, if_pos hemp]
    dsimp only [NOrderBook.remove]
    rw [NOrderBook.update.eq_def, if_neg hne]
    dsimp only
    congr 1
    exact update_then_delete_ask tp q b.depth b.asks hs hcase

/-- C7 witness: at depth 2, inserting bid (101,5) next to (100,1) and then
deleting price 101 restores the original book. -/
theorem c7_update_then_delete_witness :
    (c7WBook.update Side.BID ⟨101, 5⟩).update Side.BID ⟨101, 0⟩ =
      { c7WBook with
        bids := c7WBook.bids.filter (fun x => !(decide (x.priceTick = 101))) } :=
  c7_update_then_delete c7WBook Side.BID 101 5 (by decide)
    (by simp [sideOf, sideRel, c7WBook]) (Or.inr (Or.inl (by decide)))
